import Mathlib

/-!
Shallow embedding of the drum-machine core in `src/app/public/drummer.ts`.

Strings are modelled as lists of UTF-16 code units (natural numbers), so the
browser built-ins `btoa` / `atob` (forgiving-base64 encode / decode, per the
WHATWG infra standard) and the regex-based character replacements become plain
list functions.  JavaScript numbers that reach the tempo path are modelled as
`JsNum` (a rational, or NaN); audio-clock timestamps are rationals.  A thrown
exception is modelled as `Option.none`.
-/

namespace Drummer

/-- Code of the character at index `n` of the standard base64 alphabet
`A-Z a-z 0-9 + /`. -/
def b64Char (n : ℕ) : ℕ :=
  if n < 26 then 65 + n
  else if n < 52 then 97 + (n - 26)
  else if n < 62 then 48 + (n - 52)
  else if n = 62 then 43
  else 47

/-- Index of code-unit `c` in the base64 alphabet, `none` when `c` is not an
alphabet character (this is what makes `atob` throw). -/
def b64Val (c : ℕ) : Option ℕ :=
  if 65 ≤ c ∧ c ≤ 90 then some (c - 65)
  else if 97 ≤ c ∧ c ≤ 122 then some (c - 97 + 26)
  else if 48 ≤ c ∧ c ≤ 57 then some (c - 48 + 52)
  else if c = 43 then some 62
  else if c = 47 then some 63
  else none

/-- ASCII whitespace, which forgiving-base64 decode removes first. -/
def isB64Ws (c : ℕ) : Bool :=
  c == 9 || c == 10 || c == 12 || c == 13 || c == 32

/-- Pack bytes into base64 sextets: every group of 3 bytes becomes 4 sextets,
a trailing group of 1 or 2 bytes becomes 2 or 3 sextets (zero-filled low bits). -/
def bytesToSextets : List ℕ → List ℕ
  | [] => []
  | [b1] => [b1 / 4, b1 % 4 * 16]
  | [b1, b2] => [b1 / 4, b1 % 4 * 16 + b2 / 16, b2 % 16 * 4]
  | b1 :: b2 :: b3 :: rest =>
      b1 / 4 :: (b1 % 4 * 16 + b2 / 16) :: (b2 % 16 * 4 + b3 / 64) :: b3 % 64 ::
        bytesToSextets rest

/-- Padding characters `=` (code 61) appended by base64 encoding, as a function
of the byte-string length. -/
def b64Padding (n : ℕ) : List ℕ :=
  match n % 3 with
  | 1 => [61, 61]
  | 2 => [61]
  | _ => []

/-- The browser built-in `btoa`: base64-encode a binary string (list of byte
values) into a list of base64-alphabet code units plus `=` padding. -/
def btoa (bytes : List ℕ) : List ℕ :=
  (bytesToSextets bytes).map b64Char ++ b64Padding bytes.length

/-- Remove one trailing `=` (code 61), if present. -/
def dropOneTrailingEq (l : List ℕ) : List ℕ :=
  if l.getLast? = some 61 then l.dropLast else l

/-- Step 2 of forgiving-base64 decode: remove up to two trailing `=`. -/
def atobStrip (l : List ℕ) : List ℕ :=
  dropOneTrailingEq (dropOneTrailingEq l)

/-- Unpack sextets into bytes: every group of 4 sextets yields 3 bytes, a
trailing group of 2 or 3 sextets yields 1 or 2 bytes (low bits discarded); a
single leftover sextet is a decode error. -/
def decodeSextets : List ℕ → Option (List ℕ)
  | [] => some []
  | [_] => none
  | [s1, s2] => some [s1 * 4 + s2 / 16]
  | [s1, s2, s3] => some [s1 * 4 + s2 / 16, s2 % 16 * 16 + s3 / 4]
  | s1 :: s2 :: s3 :: s4 :: rest =>
      match decodeSextets rest with
      | none => none
      | some bs =>
          some ((s1 * 4 + s2 / 16) :: (s2 % 16 * 16 + s3 / 4) ::
            (s3 % 4 * 64 + s4) :: bs)

/-- Map every code unit through `b64Val`, failing if any is not in the
alphabet. -/
def mapB64Val : List ℕ → Option (List ℕ)
  | [] => some []
  | c :: cs =>
      match b64Val c, mapB64Val cs with
      | some v, some vs => some (v :: vs)
      | _, _ => none

/-- The browser built-in `atob` (forgiving-base64 decode): strip ASCII
whitespace; if the length is a multiple of 4 remove up to two trailing `=`;
fail when the remaining length is 1 mod 4 or any character is outside the
alphabet; otherwise unpack the sextets.  `none` models the thrown
`InvalidCharacterError`. -/
def atob (s : List ℕ) : Option (List ℕ) :=
  let d1 := s.filter (fun c => !(isB64Ws c))
  let d2 := if d1.length % 4 = 0 then atobStrip d1 else d1
  if d2.length % 4 = 1 then none
  else
    match mapB64Val d2 with
    | none => none
    | some sx => decodeSextets sx

/-- The character swaps of `b64UrlEncode` in drummer.ts:
`+` (43) to `-` (45) and `/` (47) to `_` (95). -/
def swapFwd (c : ℕ) : ℕ :=
  if c = 43 then 45 else if c = 47 then 95 else c

/-- The character swaps of `b64UrlDecode` in drummer.ts:
`-` (45) to `+` (43) and `_` (95) to `/` (47). -/
def swapBwd (c : ℕ) : ℕ :=
  if c = 45 then 43 else if c = 95 then 47 else c

/-- The effect of `.replace(/=+$/, "")`: drop every trailing `=` (code 61). -/
def stripTrailingEqAll (l : List ℕ) : List ℕ :=
  (l.reverse.dropWhile (fun c => c == 61)).reverse

/-- `b64UrlEncode` in drummer.ts: `btoa`, strip trailing padding, then swap
`+` to `-` and `/` to `_`. -/
def b64UrlEncode (buf : List ℕ) : List ℕ :=
  (stripTrailingEqAll (btoa buf)).map swapFwd

/-- `b64UrlDecode` in drummer.ts: re-append `=` padding up to a multiple of 4,
swap `-` back to `+` and `_` back to `/`, then `atob`.  `none` models the
exception `atob` throws on invalid input. -/
def b64UrlDecode (value : List ℕ) : Option (List ℕ) :=
  let padLen := if value.length % 4 = 0 then 0 else 4 - value.length % 4
  let base64 := (value ++ List.replicate padLen 61).map swapBwd
  atob base64

/-- The three instruments (`Instrument` in drummer.ts). -/
inductive Instrument : Type where
  | kicks
  | hihat
  | snare
  deriving DecidableEq

/-- The pattern record held by the `Drummer` class: one velocity track per
instrument.  Velocities are integers (JavaScript numbers that stay integral
on every reachable path). -/
structure Pattern where
  hihat : List ℤ
  snare : List ℤ
  kicks : List ℤ
  deriving DecidableEq

/-- `toDrumPatterns` in drummer.ts: slice a flat byte sequence into the three
16-step tracks (hihat = bytes 0..16, snare = 16..32, kicks = 32..48). -/
def toDrumPatterns (bytes : List ℤ) : Pattern :=
  { hihat := bytes.take 16
    snare := (bytes.drop 16).take 16
    kicks := (bytes.drop 32).take 16 }

/-- `Drummer.defaultPatterns`: 48 velocities, hihat row then snare row then
kick row. -/
def defaultPatterns : List ℤ :=
  [80, 0, 80, 0, 80, 0, 80, 80, 80, 80, 80, 0, 80, 0, 80, 0,
   0, 0, 0, 0, 80, 0, 0, 0, 0, 0, 0, 0, 80, 0, 0, 0,
   80, 0, 0, 0, 0, 0, 0, 0, 0, 0, 80, 0, 0, 0, 0, 0]

/-- Read the track of one instrument (`this.patterns[drum]`). -/
def Pattern.track (p : Pattern) : Instrument → List ℤ
  | Instrument.hihat => p.hihat
  | Instrument.snare => p.snare
  | Instrument.kicks => p.kicks

/-- Replace the track of one instrument. -/
def Pattern.setTrack (p : Pattern) : Instrument → List ℤ → Pattern
  | Instrument.hihat, l => { p with hihat := l }
  | Instrument.snare, l => { p with snare := l }
  | Instrument.kicks, l => { p with kicks := l }

/-- The `ToUint8` conversion applied by `new Uint8Array([...])` to each
(integral) element: reduce modulo 256 into `[0, 256)`. -/
def toUint8 (v : ℤ) : ℕ :=
  (v % 256).toNat

/-- A JavaScript number reaching the tempo path: a (finite) rational or NaN.
NaN arises for example from `parseFloat` of a non-numeric query parameter. -/
inductive JsNum : Type where
  | nan
  | num (q : ℚ)
  deriving DecidableEq

/-- The events a `Drummer` dispatches (drummer.ts lines 3-10).  `changed` is
the generic `drum:change` event the UI re-renders on. -/
inductive DEvent : Type where
  | kickHit
  | snareHit
  | hatHit
  | playStarted
  | stopPressed
  | tempoChanged (bpm : ℤ)
  | changed
  deriving DecidableEq

/-- The mutable fields of the `Drummer` class that the scheduling and pattern
logic reads and writes.  `hasCtx` records whether `ensureContext` has run
(`audioCtx !== null`); the audio nodes themselves carry no further state the
core logic depends on.  `nextNoteTime` is in audio-clock seconds. -/
structure DrummerState where
  hasCtx : Bool
  isPlaying : Bool
  tempoBpm : ℤ
  current16th : ℕ
  nextNoteTime : ℚ
  patterns : Pattern
  deriving DecidableEq

/-- `minBpm` in drummer.ts. -/
def minBpm : ℤ := 30

/-- `maxBpm` in drummer.ts. -/
def maxBpm : ℤ := 300

/-- The clamp expression `Math.max(minBpm, Math.min(maxBpm, Math.floor(x)))`
shared by the constructor and `setTempo`. -/
def clampTempo (q : ℚ) : ℤ :=
  max minBpm (min maxBpm ⌊q⌋)

/-- The `Drummer` constructor for a finite numeric tempo argument: clamp the
tempo and load the built-in default pattern.  No audio context exists yet and
playback is stopped.  A NaN argument (reachable through `parseFloat` of a
malformed `bpm` query parameter) is not representable in this state type:
the constructor has no falsy fallback and stores NaN unclamped - that path
is modelled exactly by `mkTempo` and `setTempoJs` on the tempo cell alone. -/
def mkDrummer (tempoBpm : ℚ) : DrummerState :=
  { hasCtx := false
    isPlaying := false
    tempoBpm := clampTempo tempoBpm
    current16th := 0
    nextNoteTime := 0
    patterns := toDrumPatterns defaultPatterns }

/-- `Drummer.serialize`: flatten hihat, snare, kicks into a `Uint8Array`
(each element reduced by `ToUint8`) and base64url-encode it. -/
def serialize (s : DrummerState) : List ℕ :=
  b64UrlEncode
    ((s.patterns.hihat ++ s.patterns.snare ++ s.patterns.kicks).map toUint8)

/-- `Drummer.deserialize`: decode the token; on a 48-byte result replace the
patterns, on any other successfully decoded length do nothing.  `none` models
the exception `atob` throws on undecodable input (thrown before any mutation).
The returned event list records the dispatched events: `deserialize`
dispatches none. -/
def deserialize (value : List ℕ) (s : DrummerState) :
    Option (DrummerState × List DEvent) :=
  match b64UrlDecode value with
  | none => none
  | some bytes =>
      if bytes.length = 48 then
        some ({ s with patterns := toDrumPatterns (bytes.map Int.ofNat) }, [])
      else
        some (s, [])

/-- `Drummer.setTempo`: `Math.floor(bpm || this.tempoBpm)` clamped to
`[minBpm, maxBpm]`; a falsy argument (0 or NaN) falls back to the stored
tempo.  Dispatches `tempoChange` with the new BPM, then `change`. -/
def setTempo (bpm : JsNum) (s : DrummerState) : DrummerState × List DEvent :=
  let base : ℚ :=
    match bpm with
    | JsNum.nan => (s.tempoBpm : ℚ)
    | JsNum.num q => if q = 0 then (s.tempoBpm : ℚ) else q
  let t := clampTempo base
  ({ s with tempoBpm := t }, [DEvent.tempoChanged t, DEvent.changed])

/-- `Drummer.reset`: restore the default patterns, then `setTempo(120)`. -/
def reset (s : DrummerState) : DrummerState × List DEvent :=
  setTempo (JsNum.num 120) { s with patterns := toDrumPatterns defaultPatterns }

/-- `Drummer.toggleNote`: set the velocity at `note` to 80 or 0 and dispatch
`change`.  Step indices are modelled in range (`note < 16`, per the data
model); `List.set` is the in-range JavaScript array store. -/
def toggleNote (drum : Instrument) (note : ℕ) (state : Bool)
    (s : DrummerState) : DrummerState × List DEvent :=
  let tr := (s.patterns.track drum).set note (if state then 80 else 0)
  ({ s with patterns := s.patterns.setTrack drum tr }, [DEvent.changed])

/-- `Drummer.adjustNoteVolume`: `Math.min(Math.max(0, v + delta), 100)` at the
given step, then dispatch `change`.  Step indices are modelled in range. -/
def adjustNoteVolume (drum : Instrument) (note : ℕ) (delta : ℤ)
    (s : DrummerState) : DrummerState × List DEvent :=
  let old := (s.patterns.track drum).getD note 0
  let tr := (s.patterns.track drum).set note (min (max 0 (old + delta)) 100)
  ({ s with patterns := s.patterns.setTrack drum tr }, [DEvent.changed])

/-- `Drummer.play`: `ensureContext` (models the browser always providing an
`AudioContext`), an optional truthy tempo argument applies `setTempo`, and if
not already playing set `_isPlaying`, reset `nextNoteTime` to the current
audio-clock time `clock`, start the interval and dispatch `play` and `change`.
`current16th` is deliberately not reset (comment at drummer.ts line 154). -/
def play (bpm : Option JsNum) (clock : ℚ) (s : DrummerState) :
    DrummerState × List DEvent :=
  let s1 := { s with hasCtx := true }
  let st :=
    match bpm with
    | some (JsNum.num q) => if q = 0 then (s1, []) else setTempo (JsNum.num q) s1
    | _ => (s1, [])
  if st.1.isPlaying then st
  else
    ({ st.1 with isPlaying := true, nextNoteTime := clock },
     st.2 ++ [DEvent.playStarted, DEvent.changed])

/-- `Drummer.stop`: a no-op before any audio context exists; otherwise clear
the interval, clear `_isPlaying`, reset `current16th` to 0 and `nextNoteTime`
to the current audio-clock time, and dispatch `stop` and `change`. -/
def stop (clock : ℚ) (s : DrummerState) : DrummerState × List DEvent :=
  if s.hasCtx then
    ({ s with isPlaying := false, current16th := 0, nextNoteTime := clock },
     [DEvent.stopPressed, DEvent.changed])
  else (s, [])

/-- `Drummer.secondsPer16th`: `60 / Math.max(1, tempoBpm) / 4`. -/
def secondsPer16th (s : DrummerState) : ℚ :=
  60 / max 1 (s.tempoBpm : ℚ) / 4

/-- `Drummer.advanceNote`: advance `nextNoteTime` by one sixteenth note at the
current tempo and step the cursor modulo 16. -/
def advanceNote (s : DrummerState) : DrummerState :=
  { s with
    nextNoteTime := s.nextNoteTime + secondsPer16th s
    current16th := (s.current16th + 1) % 16 }

/-- `Drummer.scheduleStep`: the instruments triggered at `step` with their
gains.  `playHiHat` / `playSnare` / `playKick` are called in that order with
volume `velocity / 100` and each returns without playing when the volume is
falsy (zero). -/
def scheduleStep (p : Pattern) (step : ℕ) : List (Instrument × ℚ) :=
  (if ((p.hihat.getD step 0 : ℚ) / 100) ≠ 0 then
    [(Instrument.hihat, (p.hihat.getD step 0 : ℚ) / 100)] else []) ++
  (if ((p.snare.getD step 0 : ℚ) / 100) ≠ 0 then
    [(Instrument.snare, (p.snare.getD step 0 : ℚ) / 100)] else []) ++
  (if ((p.kicks.getD step 0 : ℚ) / 100) ≠ 0 then
    [(Instrument.kicks, (p.kicks.getD step 0 : ℚ) / 100)] else [])

/-- One polling pass of `Drummer.scheduler` at a fixed audio-clock reading
`clock`, with explicit fuel so that termination of the catch-up while loop is
a provable statement rather than an assumption.  Returns the final state and
the list of `(step, absolute trigger time)` pairs passed to `scheduleStep`,
in order.  With fuel 0 the loop is left unfinished. -/
def schedulerFuel : ℕ → ℚ → DrummerState → DrummerState × List (ℕ × ℚ)
  | 0, _, s => (s, [])
  | n + 1, clock, s =>
      if s.nextNoteTime < clock + 1 / 10 then
        let r := schedulerFuel n clock (advanceNote s)
        (r.1, (s.current16th, s.nextNoteTime) :: r.2)
      else (s, [])

/-- A finite sequence of `adjustNoteVolume` calls at one (instrument, step)
cell, applied left to right. -/
def applyDeltas (drum : Instrument) (note : ℕ) (deltas : List ℤ)
    (s : DrummerState) : DrummerState :=
  deltas.foldl (fun st d => (adjustNoteVolume drum note d st).1) s

/-- The Pattern invariant with velocity bounds `[lo, hi]`: all three tracks
have length exactly 16 and every stored velocity lies in the bounds. -/
def PatternInv (lo hi : ℤ) (p : Pattern) : Prop :=
  p.hihat.length = 16 ∧ p.snare.length = 16 ∧ p.kicks.length = 16 ∧
  (∀ v ∈ p.hihat, lo ≤ v ∧ v ≤ hi) ∧
  (∀ v ∈ p.snare, lo ≤ v ∧ v ≤ hi) ∧
  (∀ v ∈ p.kicks, lo ≤ v ∧ v ≤ hi)

instance (lo hi : ℤ) (p : Pattern) : Decidable (PatternInv lo hi p) := by
  unfold PatternInv
  infer_instance

/-- `Math.floor` on a JS number: NaN propagates. -/
def jsFloor : JsNum → JsNum
  | JsNum.nan => JsNum.nan
  | JsNum.num q => JsNum.num ((⌊q⌋ : ℤ) : ℚ)

/-- `Math.min` with a numeric first argument: NaN in the second argument
propagates. -/
def jsMin (a : ℚ) : JsNum → JsNum
  | JsNum.nan => JsNum.nan
  | JsNum.num q => JsNum.num (min a q)

/-- `Math.max` with a numeric first argument: NaN in the second argument
propagates. -/
def jsMax (a : ℚ) : JsNum → JsNum
  | JsNum.nan => JsNum.nan
  | JsNum.num q => JsNum.num (max a q)

/-- The tempo the `Drummer` constructor stores, for an arbitrary JS-number
argument: `Math.max(minBpm, Math.min(maxBpm, Math.floor(tempoBpm)))` with no
falsy fallback, so NaN propagates through floor, min and max and is stored
as is. -/
def mkTempo (tempoBpm : JsNum) : JsNum :=
  jsMax 30 (jsMin 300 (jsFloor tempoBpm))

/-- The tempo stored by `setTempo` as a function of the tempo cell alone, for
an arbitrary (possibly NaN) current value: `bpm || this.tempoBpm` falls back
to the current cell when `bpm` is falsy (0 or NaN), then the same clamp
expression as the constructor is applied. -/
def setTempoJs (bpm cur : JsNum) : JsNum :=
  mkTempo
    (match bpm with
     | JsNum.nan => cur
     | JsNum.num q => if q = 0 then cur else JsNum.num q)

end Drummer

namespace Drummer

theorem b64CharSpec : ∀ x : Fin 64, b64Val (b64Char x.val) = some x.val ∧
    b64Char x.val ≠ 61 ∧ isB64Ws (b64Char x.val) = false ∧
    swapBwd (swapFwd (b64Char x.val)) = b64Char x.val := by decide

theorem b64Char_spec (x : ℕ) (h : x < 64) : b64Val (b64Char x) = some x ∧
    b64Char x ≠ 61 ∧ isB64Ws (b64Char x) = false ∧
    swapBwd (swapFwd (b64Char x)) = b64Char x :=
  b64CharSpec ⟨x, h⟩

theorem bytesToSextets_lt : ∀ (bytes : List ℕ), (∀ b ∈ bytes, b < 256) →
    ∀ x ∈ bytesToSextets bytes, x < 64 := by
  intro bytes
  induction bytes using bytesToSextets.induct with
  | case1 => simp [bytesToSextets]
  | case2 b1 =>
      intro hb x hx
      have h1 := hb b1 (by simp)
      simp [bytesToSextets] at hx
      rcases hx with h | h <;> omega
  | case3 b1 b2 =>
      intro hb x hx
      have h1 := hb b1 (by simp)
      have h2 := hb b2 (by simp)
      simp [bytesToSextets] at hx
      rcases hx with h | h | h <;> omega
  | case4 b1 b2 b3 rest ih =>
      intro hb x hx
      have h1 := hb b1 (by simp)
      have h2 := hb b2 (by simp)
      have h3 := hb b3 (by simp)
      simp only [bytesToSextets, List.mem_cons] at hx
      rcases hx with h | h | h | h | h
      · omega
      · omega
      · omega
      · omega
      · exact ih (fun b hbm => hb b (by simp [hbm])) x h

theorem bytesToSextets_length : ∀ (bytes : List ℕ), bytes.length % 3 = 0 →
    (bytesToSextets bytes).length % 4 = 0 := by
  intro bytes
  induction bytes using bytesToSextets.induct with
  | case1 => simp [bytesToSextets]
  | case2 b1 => intro h; simp at h
  | case3 b1 b2 => intro h; simp at h
  | case4 b1 b2 b3 rest ih =>
      intro h
      simp only [List.length_cons] at h
      have hr : rest.length % 3 = 0 := by omega
      simp only [bytesToSextets, List.length_cons]
      have := ih hr
      omega

theorem decodeSextets_bytesToSextets : ∀ (bytes : List ℕ),
    (∀ b ∈ bytes, b < 256) →
    decodeSextets (bytesToSextets bytes) = some bytes := by
  intro bytes
  induction bytes using bytesToSextets.induct with
  | case1 => intro _; rfl
  | case2 b1 =>
      intro hb
      have h1 := hb b1 (by simp)
      simp only [bytesToSextets, decodeSextets]
      have e1 : (b1 / 4) * 4 + (b1 % 4 * 16) / 16 = b1 := by omega
      rw [e1]
  | case3 b1 b2 =>
      intro hb
      have h1 := hb b1 (by simp)
      have h2 := hb b2 (by simp)
      simp only [bytesToSextets, decodeSextets]
      congr 1
      have e1 : (b1 / 4) * 4 + (b1 % 4 * 16 + b2 / 16) / 16 = b1 := by omega
      have e2 : (b1 % 4 * 16 + b2 / 16) % 16 * 16 + b2 % 16 * 4 / 4 = b2 := by omega
      rw [e1, e2]
  | case4 b1 b2 b3 rest ih =>
      intro hb
      have h1 := hb b1 (by simp)
      have h2 := hb b2 (by simp)
      have h3 := hb b3 (by simp)
      have hr := ih (fun b hbm => hb b (by simp [hbm]))
      simp only [bytesToSextets, decodeSextets, hr]
      have e1 : (b1 / 4) * 4 + (b1 % 4 * 16 + b2 / 16) / 16 = b1 := by omega
      have e2 : (b1 % 4 * 16 + b2 / 16) % 16 * 16 + (b2 % 16 * 4 + b3 / 64) / 4 = b2 := by omega
      have e3 : (b2 % 16 * 4 + b3 / 64) % 4 * 64 + b3 % 64 = b3 := by omega
      rw [e1, e2, e3]

end Drummer

namespace Drummer

theorem mapB64Val_map_b64Char : ∀ (sx : List ℕ), (∀ x ∈ sx, x < 64) →
    mapB64Val (sx.map b64Char) = some sx := by
  intro sx
  induction sx with
  | nil => intro _; rfl
  | cons a as ih =>
      intro h
      have ha := (b64Char_spec a (h a (by simp))).1
      have hr := ih (fun x hx => h x (by simp [hx]))
      simp only [List.map_cons, mapB64Val, ha, hr]

theorem dropOneTrailingEq_eq_self (l : List ℕ) (h : ∀ c ∈ l, c ≠ 61) :
    dropOneTrailingEq l = l := by
  unfold dropOneTrailingEq
  split
  · rename_i heq
    exact absurd rfl (h 61 (List.mem_of_mem_getLast? (by rw [heq]; rfl)))
  · rfl

theorem dropWhileNe_eq_self (p : ℕ → Bool) :
    ∀ (l : List ℕ), (∀ c ∈ l, p c = false) → l.dropWhile p = l := by
  intro l h
  cases l with
  | nil => rfl
  | cons a as => simp [List.dropWhile, h a (by simp)]

theorem stripTrailingEqAll_eq_self (l : List ℕ) (h : ∀ c ∈ l, c ≠ 61) :
    stripTrailingEqAll l = l := by
  unfold stripTrailingEqAll
  rw [dropWhileNe_eq_self _ _ (fun c hc => by
    simp only [beq_eq_false_iff_ne, ne_eq]
    exact h c (List.mem_reverse.mp hc))]
  exact List.reverse_reverse l

/-- Round trip of the URL-safe base64 coder for byte strings whose length is
a multiple of 3 (a 48-byte pattern token in particular): no padding is
produced, so decode exactly inverts encode. -/
theorem b64Url_roundtrip (bytes : List ℕ) (hb : ∀ b ∈ bytes, b < 256)
    (h3 : bytes.length % 3 = 0) :
    b64UrlDecode (b64UrlEncode bytes) = some bytes := by
  have hsx := bytesToSextets_lt bytes hb
  have hpad : b64Padding bytes.length = [] := by
    unfold b64Padding
    rw [h3]
  have hbtoa : btoa bytes = (bytesToSextets bytes).map b64Char := by
    unfold btoa
    rw [hpad, List.append_nil]
  have hchars : ∀ c ∈ (bytesToSextets bytes).map b64Char, c ≠ 61 := by
    intro c hc
    rcases List.mem_map.mp hc with ⟨x, hx, rfl⟩
    exact (b64Char_spec x (hsx x hx)).2.1
  have henc : b64UrlEncode bytes = ((bytesToSextets bytes).map b64Char).map swapFwd := by
    unfold b64UrlEncode
    rw [hbtoa, stripTrailingEqAll_eq_self _ hchars]
  have hlen4 : (((bytesToSextets bytes).map b64Char).map swapFwd).length % 4 = 0 := by
    simp only [List.length_map]
    exact bytesToSextets_length bytes h3
  have hswap : (((bytesToSextets bytes).map b64Char).map swapFwd).map swapBwd =
      (bytesToSextets bytes).map b64Char := by
    rw [List.map_map, List.map_map]
    apply List.map_congr_left
    intro x hx
    exact (b64Char_spec x (hsx x hx)).2.2.2
  rw [henc]
  unfold b64UrlDecode
  rw [if_pos hlen4]
  simp only [List.replicate_zero, List.append_nil]
  rw [hswap]
  unfold atob
  have hws : ((bytesToSextets bytes).map b64Char).filter (fun c => !(isB64Ws c)) =
      (bytesToSextets bytes).map b64Char := by
    apply List.filter_eq_self.mpr
    intro c hc
    rcases List.mem_map.mp hc with ⟨x, hx, rfl⟩
    simp [(b64Char_spec x (hsx x hx)).2.2.1]
  simp only [hws]
  have hlen4b : ((bytesToSextets bytes).map b64Char).length % 4 = 0 := by
    simp only [List.length_map]
    exact bytesToSextets_length bytes h3
  have hstrip : atobStrip ((bytesToSextets bytes).map b64Char) =
      (bytesToSextets bytes).map b64Char := by
    unfold atobStrip
    rw [dropOneTrailingEq_eq_self _ hchars, dropOneTrailingEq_eq_self _ hchars]
  rw [if_pos hlen4b, hstrip]
  have hne1 : ¬ ((List.map b64Char (bytesToSextets bytes)).length % 4 = 1) := by
    omega
  rw [if_neg hne1, mapB64Val_map_b64Char _ hsx]
  exact decodeSextets_bytesToSextets bytes hb

end Drummer

namespace Drummer

theorem b64Val_lt (c v : ℕ) (h : b64Val c = some v) : v < 64 := by
  unfold b64Val at h
  split_ifs at h <;> simp_all <;> omega

theorem mapB64Val_lt : ∀ (l vs : List ℕ), mapB64Val l = some vs →
    ∀ v ∈ vs, v < 64 := by
  intro l
  induction l with
  | nil =>
      intro vs h
      simp only [mapB64Val, Option.some.injEq] at h
      subst h
      simp
  | cons c cs ih =>
      intro vs h v hv
      simp only [mapB64Val] at h
      cases hc : b64Val c with
      | none => rw [hc] at h; exact absurd h (by simp)
      | some w =>
          rw [hc] at h
          cases hcs : mapB64Val cs with
          | none => rw [hcs] at h; exact absurd h (by simp)
          | some ws =>
              rw [hcs] at h
              simp only [Option.some.injEq] at h
              subst h
              rcases List.mem_cons.mp hv with rfl | hm
              · exact b64Val_lt c v hc
              · exact ih ws hcs v hm

theorem decodeSextets_lt : ∀ (sx bs : List ℕ), (∀ x ∈ sx, x < 64) →
    decodeSextets sx = some bs → ∀ b ∈ bs, b < 256
  | [], bs, _, h => by
      simp only [decodeSextets, Option.some.injEq] at h
      subst h; simp
  | [s1], bs, _, h => absurd h (by simp [decodeSextets])
  | [s1, s2], bs, hx, h => by
      have h1 := hx s1 (by simp)
      have h2 := hx s2 (by simp)
      simp only [decodeSextets, Option.some.injEq] at h
      subst h
      intro b hb
      simp only [List.mem_cons, List.not_mem_nil, or_false] at hb
      omega
  | [s1, s2, s3], bs, hx, h => by
      have h1 := hx s1 (by simp)
      have h2 := hx s2 (by simp)
      have h3 := hx s3 (by simp)
      simp only [decodeSextets, Option.some.injEq] at h
      subst h
      intro b hb
      simp only [List.mem_cons, List.not_mem_nil, or_false] at hb
      rcases hb with rfl | rfl <;> omega
  | s1 :: s2 :: s3 :: s4 :: rest, bs, hx, h => by
      have h1 := hx s1 (by simp)
      have h2 := hx s2 (by simp)
      have h3 := hx s3 (by simp)
      have h4 := hx s4 (by simp)
      simp only [decodeSextets] at h
      cases hr : decodeSextets rest with
      | none => rw [hr] at h; exact absurd h (by simp)
      | some rbs =>
          rw [hr] at h
          simp only [Option.some.injEq] at h
          subst h
          have hrec := decodeSextets_lt rest rbs
            (fun x hxm => hx x (by simp [hxm])) hr
          intro b hb
          simp only [List.mem_cons] at hb
          rcases hb with rfl | rfl | rfl | hm
          · omega
          · omega
          · omega
          · exact hrec b hm

theorem matchDecode_lt (d bs : List ℕ)
    (h : (match mapB64Val d with
          | none => none
          | some sx => decodeSextets sx) = some bs) :
    ∀ b ∈ bs, b < 256 := by
  cases hM : mapB64Val d with
  | none => rw [hM] at h; exact absurd h (by simp)
  | some sx =>
      rw [hM] at h
      exact decodeSextets_lt sx bs (mapB64Val_lt d sx hM) h

/-- Every byte produced by a successful `atob` is below 256. -/
theorem atob_lt (s bs : List ℕ) (h : atob s = some bs) : ∀ b ∈ bs, b < 256 := by
  simp only [atob] at h
  split_ifs at h
  all_goals first
    | exact absurd h (by simp)
    | exact matchDecode_lt _ bs h

/-- Every byte produced by a successful `b64UrlDecode` is below 256. -/
theorem b64UrlDecode_lt (v bs : List ℕ) (h : b64UrlDecode v = some bs) :
    ∀ b ∈ bs, b < 256 := by
  unfold b64UrlDecode at h
  exact atob_lt _ bs h

end Drummer

namespace Drummer

theorem take16_append (h sn k : List ℤ) (hh : h.length = 16) :
    (h ++ sn ++ k).take 16 = h := by
  rw [List.append_assoc]
  exact List.take_left' hh

theorem drop16_append (h sn k : List ℤ) (hh : h.length = 16) :
    (h ++ sn ++ k).drop 16 = sn ++ k := by
  rw [List.append_assoc]
  exact List.drop_left' hh

theorem drop32_append (h sn k : List ℤ) (hh : h.length = 16)
    (hs : sn.length = 16) : (h ++ sn ++ k).drop 32 = k := by
  rw [show (32 : ℕ) = 16 + 16 from rfl, ← List.drop_drop, drop16_append h sn k hh]
  exact List.drop_left' hs

/-- C2: for every state whose Pattern satisfies the invariant (three tracks of
16 velocities, each in `[0, 100]`), deserializing the token produced by
`serialize` leaves the store holding a Pattern equal to the original one (in
fact the whole state is unchanged), with no exception. -/
theorem serialize_roundtrip (s : DrummerState)
    (hinv : PatternInv 0 100 s.patterns) :
    deserialize (serialize s) s = some (s, []) := by
  obtain ⟨hh, hs, hk, hvh, hvs, hvk⟩ := hinv
  have hmem : ∀ v ∈ s.patterns.hihat ++ s.patterns.snare ++ s.patterns.kicks,
      0 ≤ v ∧ v ≤ 100 := by
    intro v hv
    rcases List.mem_append.mp hv with hv2 | hv2
    · rcases List.mem_append.mp hv2 with hv3 | hv3
      · exact hvh v hv3
      · exact hvs v hv3
    · exact hvk v hv2
  set flat := s.patterns.hihat ++ s.patterns.snare ++ s.patterns.kicks with hflat
  have hlen : flat.length = 48 := by
    simp only [hflat, List.length_append, hh, hs, hk]
  have hbytes : ∀ b ∈ flat.map toUint8, b < 256 := by
    intro b hb
    rcases List.mem_map.mp hb with ⟨v, _, rfl⟩
    unfold toUint8
    have h1 := Int.emod_lt_of_pos v (by norm_num : (0:ℤ) < 256)
    have h2 := Int.emod_nonneg v (by norm_num : (256:ℤ) ≠ 0)
    omega
  have hlen3 : (flat.map toUint8).length % 3 = 0 := by
    simp [hlen]
  have hdec := b64Url_roundtrip (flat.map toUint8) hbytes hlen3
  have hback : (flat.map toUint8).map Int.ofNat = flat := by
    rw [List.map_map]
    have hpt : ∀ v ∈ flat, Int.ofNat (toUint8 v) = v := by
      intro v hv
      have hb := hmem v hv
      unfold toUint8
      have hlt : v % 256 = v := Int.emod_eq_of_lt hb.1 (by omega)
      rw [hlt, Int.ofNat_eq_coe]
      exact Int.toNat_of_nonneg hb.1
    calc flat.map (Int.ofNat ∘ toUint8)
        = flat.map id := List.map_congr_left (fun v hv => hpt v hv)
      _ = flat := List.map_id flat
  have hpat : toDrumPatterns ((flat.map toUint8).map Int.ofNat) =
      s.patterns := by
    rw [hback]
    unfold toDrumPatterns
    rw [hflat, take16_append _ _ _ hh, drop16_append _ _ _ hh,
      List.take_left' hs, drop32_append _ _ _ hh hs, ← hk, List.take_length]
  unfold serialize deserialize
  rw [← hflat, hdec]
  simp only [List.length_map, hlen, if_true, hpat]

/-- C4 (amended): tokens the base64 decoder accepts but whose decoded length
is not 48 bytes (the empty string among them) leave the state unchanged and
raise nothing; tokens the decoder rejects (such as `"not-base64!!"`, whose
`!` is outside the alphabet) make `atob` throw before any mutation. -/
theorem deserialize_malformed (value : List ℕ) (s : DrummerState) :
    (∀ bs, b64UrlDecode value = some bs → bs.length ≠ 48 →
      deserialize value s = some (s, [])) ∧
    (b64UrlDecode value = none → deserialize value s = none) := by
  constructor
  · intro bs hb hlen
    unfold deserialize
    rw [hb]
    simp [hlen]
  · intro hb
    unfold deserialize
    rw [hb]

/-- C4 counterexample: `deserialize("not-base64!!")` (the code units of that
string) does not complete normally — `atob` throws on the `!` characters —
contradicting the claim that every malformed token is silently ignored. -/
theorem deserialize_notBase64_throws :
    deserialize [110, 111, 116, 45, 98, 97, 115, 101, 54, 52, 33, 33]
      (mkDrummer 120) = none := by decide

/-- C4 witness: the empty token decodes to 0 bytes and is silently ignored. -/
theorem deserialize_malformed_witness :
    deserialize [] (mkDrummer 120) = some (mkDrummer 120, []) :=
  (deserialize_malformed [] (mkDrummer 120)).1 [] (by decide) (by decide)

/-- C2 witness: the round trip at the freshly constructed default state. -/
theorem serialize_roundtrip_witness :
    deserialize (serialize (mkDrummer 120)) (mkDrummer 120) =
      some (mkDrummer 120, []) :=
  serialize_roundtrip (mkDrummer 120) (by decide)

end Drummer

namespace Drummer

theorem clampTempo_mem (q : ℚ) : minBpm ≤ clampTempo q ∧ clampTempo q ≤ maxBpm := by
  unfold clampTempo minBpm maxBpm
  constructor
  · exact le_max_left _ _
  · exact max_le (by norm_num) (min_le_left _ _)

theorem clampTempo_low (q : ℚ) (h : q < 30) : clampTempo q = 30 := by
  have hf : ⌊q⌋ < 30 := by
    have := Int.floor_lt.mpr (show q < ((30 : ℤ) : ℚ) by push_cast; exact h)
    exact this
  unfold clampTempo minBpm maxBpm
  omega

theorem clampTempo_high (q : ℚ) (h : 300 < q) : clampTempo q = 300 := by
  have hf : (300 : ℤ) ≤ ⌊q⌋ := by
    exact Int.le_floor.mpr (show ((300 : ℤ) : ℚ) ≤ q by push_cast; exact le_of_lt h)
  unfold clampTempo minBpm maxBpm
  omega

theorem clampTempo_int (t : ℤ) (h30 : (30 : ℤ) ≤ t) (h300 : t ≤ 300) :
    clampTempo (t : ℚ) = t := by
  unfold clampTempo minBpm maxBpm
  rw [Int.floor_intCast]
  omega

theorem setTempo_fst_tempo (bpm : JsNum) (s : DrummerState) :
    (setTempo bpm s).1.tempoBpm =
      clampTempo (match bpm with
        | JsNum.nan => (s.tempoBpm : ℚ)
        | JsNum.num q => if q = 0 then (s.tempoBpm : ℚ) else q) := rfl

theorem mkTempo_num (q : ℚ) :
    mkTempo (JsNum.num q) = JsNum.num ((clampTempo q : ℤ) : ℚ) := by
  simp only [mkTempo, jsFloor, jsMin, jsMax, clampTempo, minBpm, maxBpm]
  congr 1
  push_cast
  rfl

/-- C8 counterexample: the constructor has no falsy fallback, so the NaN
tempo argument (reachable through `parseFloat` of a malformed `bpm` query
parameter) is stored as NaN, not as an integer clamped into `[30, 300]`; a
subsequent `setTempo(0)` or `setTempo(NaN)` keeps the stored tempo NaN
rather than leaving a `[30, 300]` integer in place. -/
theorem constructor_nan_unclamped :
    mkTempo JsNum.nan = JsNum.nan ∧
    setTempoJs (JsNum.num 0) (mkTempo JsNum.nan) = JsNum.nan ∧
    setTempoJs JsNum.nan (mkTempo JsNum.nan) = JsNum.nan ∧
    mkTempo JsNum.nan ≠ JsNum.num 30 ∧
    mkTempo JsNum.nan ≠ JsNum.num 300 :=
  ⟨rfl, rfl, rfl, by decide, by decide⟩

/-- C8 (amended): from any state whose stored tempo is an integer in
`[30, 300]` (every state constructed with a finite tempo argument),
`setTempo` stores an integer in `[30, 300]`: nonzero numeric inputs below 30
clamp to 30, inputs above 300 clamp to 300, and a zero or NaN input leaves
the stored tempo unchanged.  The constructor applies the same clamp to
finite numeric arguments, but it has no falsy fallback: a NaN construction
argument is stored as NaN unclamped, and from that cell zero or NaN
`setTempo` inputs keep the stored tempo NaN (`setTempoJs` agrees with
`setTempo` on every numeric cell). -/
theorem setTempo_clamps (s : DrummerState) (bpm : JsNum)
    (hs : minBpm ≤ s.tempoBpm ∧ s.tempoBpm ≤ maxBpm) :
    (minBpm ≤ (setTempo bpm s).1.tempoBpm ∧
      (setTempo bpm s).1.tempoBpm ≤ maxBpm) ∧
    (∀ q : ℚ, bpm = JsNum.num q → q ≠ 0 → q < 30 →
      (setTempo bpm s).1.tempoBpm = 30) ∧
    (∀ q : ℚ, bpm = JsNum.num q → 300 < q →
      (setTempo bpm s).1.tempoBpm = 300) ∧
    (bpm = JsNum.nan ∨ bpm = JsNum.num 0 →
      (setTempo bpm s).1.tempoBpm = s.tempoBpm) ∧
    (∀ q : ℚ, minBpm ≤ (mkDrummer q).tempoBpm ∧
      (mkDrummer q).tempoBpm ≤ maxBpm ∧ (mkDrummer q).tempoBpm = clampTempo q) ∧
    (∀ q : ℚ, mkTempo (JsNum.num q) = JsNum.num ((clampTempo q : ℤ) : ℚ)) ∧
    mkTempo JsNum.nan = JsNum.nan ∧
    (∀ b : JsNum, setTempoJs b (JsNum.num (s.tempoBpm : ℚ)) =
      JsNum.num (((setTempo b s).1.tempoBpm : ℤ) : ℚ)) ∧
    setTempoJs (JsNum.num 0) JsNum.nan = JsNum.nan ∧
    setTempoJs JsNum.nan JsNum.nan = JsNum.nan := by
  refine ⟨?_, ?_, ?_, ?_, ?_, mkTempo_num, rfl, ?_, rfl, rfl⟩
  · rw [setTempo_fst_tempo]
    exact clampTempo_mem _
  · rintro q rfl hq0 hq30
    rw [setTempo_fst_tempo]
    simp only [if_neg hq0]
    exact clampTempo_low q hq30
  · rintro q rfl hq300
    rw [setTempo_fst_tempo]
    have hq0 : q ≠ 0 := by positivity
    simp only [if_neg hq0]
    exact clampTempo_high q hq300
  · rintro (rfl | rfl) <;> rw [setTempo_fst_tempo]
    · exact clampTempo_int s.tempoBpm hs.1 hs.2
    · simp only [if_pos rfl]
      exact clampTempo_int s.tempoBpm hs.1 hs.2
  · intro q
    refine ⟨(clampTempo_mem q).1, (clampTempo_mem q).2, rfl⟩
  · intro b
    cases b with
    | nan =>
        show mkTempo (JsNum.num (s.tempoBpm : ℚ)) = _
        rw [mkTempo_num, setTempo_fst_tempo]
    | num q =>
        by_cases hq : q = 0
        · subst hq
          show mkTempo (if (0 : ℚ) = 0 then JsNum.num (s.tempoBpm : ℚ)
            else JsNum.num 0) = _
          rw [if_pos rfl, mkTempo_num, setTempo_fst_tempo]
          dsimp only
          rw [if_pos rfl]
        · show mkTempo (if q = 0 then JsNum.num (s.tempoBpm : ℚ)
            else JsNum.num q) = _
          rw [if_neg hq, mkTempo_num, setTempo_fst_tempo]
          dsimp only
          rw [if_neg hq]

/-- C8 witness: concrete clampings - 10 comes back as 30, 1000 as 300, NaN
leaves a stored tempo of 200 unchanged. -/
theorem setTempo_clamps_witness :
    (setTempo (JsNum.num 10) (mkDrummer 120)).1.tempoBpm = 30 ∧
    (setTempo (JsNum.num 1000) (mkDrummer 120)).1.tempoBpm = 300 ∧
    (setTempo JsNum.nan (mkDrummer 200)).1.tempoBpm = (mkDrummer 200).tempoBpm :=
  ⟨(setTempo_clamps (mkDrummer 120) (JsNum.num 10) (by decide)).2.1 10 rfl
      (by norm_num) (by norm_num),
   (setTempo_clamps (mkDrummer 120) (JsNum.num 1000) (by decide)).2.2.1 1000 rfl
      (by norm_num),
   (setTempo_clamps (mkDrummer 200) JsNum.nan (by decide)).2.2.2.1 (Or.inl rfl)⟩

end Drummer

namespace Drummer

theorem track_setTrack (p : Pattern) (d : Instrument) (l : List ℤ) :
    (p.setTrack d l).track d = l := by
  cases d <;> rfl

theorem adjust_track (s : DrummerState) (d : Instrument) (n : ℕ) (δ : ℤ) :
    (adjustNoteVolume d n δ s).1.patterns.track d =
      (s.patterns.track d).set n
        (min (max 0 ((s.patterns.track d).getD n 0 + δ)) 100) := by
  unfold adjustNoteVolume
  exact track_setTrack _ _ _

theorem getD_set_self (l : List ℤ) (n : ℕ) (a : ℤ) (h : n < l.length) :
    (l.set n a).getD n 0 = a := by
  simp [List.getD, List.getElem?_set, h]

theorem applyDeltas_bounds (drum : Instrument) (note : ℕ) :
    ∀ (deltas : List ℤ) (s : DrummerState), note < 16 →
    (s.patterns.track drum).length = 16 →
    0 ≤ (s.patterns.track drum).getD note 0 →
    (s.patterns.track drum).getD note 0 ≤ 100 →
    ((applyDeltas drum note deltas s).patterns.track drum).length = 16 ∧
    0 ≤ ((applyDeltas drum note deltas s).patterns.track drum).getD note 0 ∧
    ((applyDeltas drum note deltas s).patterns.track drum).getD note 0 ≤ 100 := by
  intro deltas
  induction deltas with
  | nil =>
      intro s hn hlen h0 h100
      exact ⟨hlen, h0, h100⟩
  | cons δ ds ih =>
      intro s hn hlen h0 h100
      have hstep : applyDeltas drum note (δ :: ds) s =
          applyDeltas drum note ds (adjustNoteVolume drum note δ s).1 := rfl
      rw [hstep]
      have htr := adjust_track s drum note δ
      have hlen2 : ((adjustNoteVolume drum note δ s).1.patterns.track drum).length = 16 := by
        rw [htr, List.length_set]
        exact hlen
      have hval : ((adjustNoteVolume drum note δ s).1.patterns.track drum).getD note 0 =
          min (max 0 ((s.patterns.track drum).getD note 0 + δ)) 100 := by
        rw [htr]
        exact getD_set_self _ _ _ (by omega)
      exact ih _ hn hlen2 (by rw [hval]; omega) (by rw [hval]; omega)

/-- C9: at any in-range step of any instrument track of length 16, every
finite sequence of `adjustNoteVolume` calls keeps the stored velocity in
`[0, 100]` after each call, and a single call saturates at the bounds: a
delta overshooting 100 stores exactly 100 and one undershooting 0 stores
exactly 0 (no wrap-around). -/
theorem adjustVelocity_saturates (s : DrummerState) (drum : Instrument)
    (note : ℕ) (deltas : List ℤ) (delta : ℤ) (hn : note < 16)
    (hlen : (s.patterns.track drum).length = 16) :
    ((0 ≤ (s.patterns.track drum).getD note 0 ∧
        (s.patterns.track drum).getD note 0 ≤ 100) →
      0 ≤ ((applyDeltas drum note deltas s).patterns.track drum).getD note 0 ∧
      ((applyDeltas drum note deltas s).patterns.track drum).getD note 0 ≤ 100) ∧
    (100 < (s.patterns.track drum).getD note 0 + delta →
      ((adjustNoteVolume drum note delta s).1.patterns.track drum).getD note 0 = 100) ∧
    ((s.patterns.track drum).getD note 0 + delta < 0 →
      ((adjustNoteVolume drum note delta s).1.patterns.track drum).getD note 0 = 0) := by
  refine ⟨?_, ?_, ?_⟩
  · intro hb
    have := applyDeltas_bounds drum note deltas s hn hlen hb.1 hb.2
    exact ⟨this.2.1, this.2.2⟩
  · intro hover
    rw [adjust_track, getD_set_self _ _ _ (by omega)]
    omega
  · intro hunder
    rw [adjust_track, getD_set_self _ _ _ (by omega)]
    omega

/-- C9 witness: on the default pattern at hihat step 0 (velocity 80), the
delta sequence `[300, -500]` keeps the value in bounds, a `+50` saturates to
100, and a `-100` saturates to 0. -/
theorem adjustVelocity_saturates_witness :
    (0 ≤ ((applyDeltas Instrument.hihat 0 [300, -500] (mkDrummer 120)).patterns.track
        Instrument.hihat).getD 0 0 ∧
      ((applyDeltas Instrument.hihat 0 [300, -500] (mkDrummer 120)).patterns.track
        Instrument.hihat).getD 0 0 ≤ 100) ∧
    ((adjustNoteVolume Instrument.hihat 0 50 (mkDrummer 120)).1.patterns.track
      Instrument.hihat).getD 0 0 = 100 ∧
    ((adjustNoteVolume Instrument.hihat 0 (-100) (mkDrummer 120)).1.patterns.track
      Instrument.hihat).getD 0 0 = 0 :=
  ⟨(adjustVelocity_saturates (mkDrummer 120) Instrument.hihat 0 [300, -500] 0
      (by decide) (by decide)).1 (by decide),
   (adjustVelocity_saturates (mkDrummer 120) Instrument.hihat 0 [] 50
      (by decide) (by decide)).2.1 (by decide),
   (adjustVelocity_saturates (mkDrummer 120) Instrument.hihat 0 [] (-100)
      (by decide) (by decide)).2.2 (by decide)⟩

end Drummer

namespace Drummer

theorem default_track_vals :
    (mkDrummer 120).patterns.hihat.getD 0 0 = 80 ∧
    (mkDrummer 120).patterns.snare.getD 0 0 = 0 ∧
    (mkDrummer 120).patterns.kicks.getD 0 0 = 80 ∧
    (mkDrummer 120).patterns.hihat.getD 4 0 = 80 ∧
    (mkDrummer 120).patterns.snare.getD 4 0 = 80 ∧
    (mkDrummer 120).patterns.kicks.getD 4 0 = 0 := by decide

/-- C5 counterexample: with the built-in default pattern, step 4 does not
trigger only the Snare - the HiHat fires there too (the default hihat row has
velocity 80 at index 4), so the instruments triggered at step 4 are HiHat and
Snare. -/
theorem defaultPattern_step4_not_only_snare :
    (scheduleStep (mkDrummer 120).patterns 4).map Prod.fst =
      [Instrument.hihat, Instrument.snare] := by
  unfold scheduleStep
  rw [default_track_vals.2.2.2.1, default_track_vals.2.2.2.2.1,
    default_track_vals.2.2.2.2.2]
  norm_num

/-- C5 (amended): with the built-in default pattern, step 0 triggers exactly
the Kick and the HiHat at gain 80/100 each; step 4 triggers the Snare and
also the HiHat (both at gain 80/100), the Kick staying silent; and `reset`
from any state stores tempo 120 and the built-in default pattern. -/
theorem defaultPattern_scenario :
    scheduleStep (mkDrummer 120).patterns 0 =
      [(Instrument.hihat, 80 / 100), (Instrument.kicks, 80 / 100)] ∧
    scheduleStep (mkDrummer 120).patterns 4 =
      [(Instrument.hihat, 80 / 100), (Instrument.snare, 80 / 100)] ∧
    ∀ s : DrummerState, (reset s).1.tempoBpm = 120 ∧
      (reset s).1.patterns = toDrumPatterns defaultPatterns := by
  refine ⟨?_, ?_, ?_⟩
  · unfold scheduleStep
    rw [default_track_vals.1, default_track_vals.2.1, default_track_vals.2.2.1]
    norm_num
  · unfold scheduleStep
    rw [default_track_vals.2.2.2.1, default_track_vals.2.2.2.2.1,
      default_track_vals.2.2.2.2.2]
    norm_num
  · intro s
    constructor
    · unfold reset
      rw [setTempo_fst_tempo]
      dsimp only
      rw [if_neg (by norm_num : ¬ (120 : ℚ) = 0)]
      exact clampTempo_int 120 (by norm_num) (by norm_num)
    · rfl

end Drummer

namespace Drummer

set_option maxRecDepth 8192 in
/-- C6 counterexample: `deserialize` of a valid 48-byte token (64 underscore
characters, decoding to velocity 255 everywhere) replaces the stored Pattern
yet dispatches no event at all - in particular no generic change
notification - contradicting the claim that every mutating operation,
deserialize included, emits one. -/
theorem deserialize_no_change_event :
    (deserialize (List.replicate 64 95) (mkDrummer 120)).map
        (fun p => (decide (p.1.patterns = (mkDrummer 120).patterns), p.2)) =
      some (false, []) := by decide

/-- C6 (amended): `toggleNote`, `adjustNoteVolume`, `reset` and `setTempo`
each dispatch the generic change event synchronously before returning, but
`deserialize` dispatches nothing: a Pattern restored from a token produces no
notification. -/
theorem mutations_emit_change :
    (∀ (s : DrummerState) (d : Instrument) (n : ℕ) (b : Bool),
      DEvent.changed ∈ (toggleNote d n b s).2) ∧
    (∀ (s : DrummerState) (d : Instrument) (n : ℕ) (δ : ℤ),
      DEvent.changed ∈ (adjustNoteVolume d n δ s).2) ∧
    (∀ s : DrummerState, DEvent.changed ∈ (reset s).2) ∧
    (∀ (s : DrummerState) (bpm : JsNum), DEvent.changed ∈ (setTempo bpm s).2) ∧
    (∀ (value : List ℕ) (s : DrummerState) (p : DrummerState × List DEvent),
      deserialize value s = some p → p.2 = []) := by
  refine ⟨?_, ?_, ?_, ?_, ?_⟩
  · intro s d n b
    simp [toggleNote]
  · intro s d n δ
    simp [adjustNoteVolume]
  · intro s
    simp [reset, setTempo]
  · intro s bpm
    simp [setTempo]
  · intro value s p h
    unfold deserialize at h
    cases hd : b64UrlDecode value with
    | none => rw [hd] at h; exact absurd h (by simp)
    | some bytes =>
        rw [hd] at h
        dsimp only at h
        split_ifs at h <;> · injection h with h2; rw [← h2]

/-- C6 witness: the change event of a concrete `toggleNote`, and the empty
event list of a concrete successful `deserialize`. -/
theorem mutations_emit_change_witness :
    DEvent.changed ∈ (toggleNote Instrument.kicks 0 true (mkDrummer 120)).2 ∧
    (mkDrummer 120, ([] : List DEvent)).2 = ([] : List DEvent) :=
  ⟨mutations_emit_change.1 (mkDrummer 120) Instrument.kicks 0 true,
   mutations_emit_change.2.2.2.2 [] (mkDrummer 120) (mkDrummer 120, [])
     (by decide)⟩

end Drummer

namespace Drummer

theorem toDrumPatterns_inv (bytes : List ℤ) (hlen : bytes.length = 48)
    (lo hi : ℤ) (hv : ∀ b ∈ bytes, lo ≤ b ∧ b ≤ hi) :
    PatternInv lo hi (toDrumPatterns bytes) := by
  unfold toDrumPatterns PatternInv
  refine ⟨?_, ?_, ?_, ?_, ?_, ?_⟩
  · rw [List.length_take, hlen]
    decide
  · rw [List.length_take, List.length_drop, hlen]
    decide
  · rw [List.length_take, List.length_drop, hlen]
    decide
  · intro v hv2
    exact hv v (List.mem_of_mem_take hv2)
  · intro v hv2
    exact hv v (List.mem_of_mem_drop (List.mem_of_mem_take hv2))
  · intro v hv2
    exact hv v (List.mem_of_mem_drop (List.mem_of_mem_take hv2))

theorem set_preserves_inv (lo hi : ℤ) (p : Pattern) (d : Instrument) (n : ℕ)
    (a : ℤ) (ha : lo ≤ a ∧ a ≤ hi) (hp : PatternInv lo hi p) :
    PatternInv lo hi (p.setTrack d ((p.track d).set n a)) := by
  obtain ⟨hh, hs, hk, hvh, hvs, hvk⟩ := hp
  have hmem : ∀ (l : List ℤ), (∀ v ∈ l, lo ≤ v ∧ v ≤ hi) →
      ∀ v ∈ l.set n a, lo ≤ v ∧ v ≤ hi := by
    intro l hl v hv
    rcases List.mem_or_eq_of_mem_set hv with hm | rfl
    · exact hl v hm
    · exact ha
  cases d with
  | hihat =>
      unfold PatternInv Pattern.setTrack Pattern.track
      exact ⟨by rw [List.length_set]; exact hh, hs, hk, hmem _ hvh, hvs, hvk⟩
  | snare =>
      unfold PatternInv Pattern.setTrack Pattern.track
      exact ⟨hh, by rw [List.length_set]; exact hs, hk, hvh, hmem _ hvs, hvk⟩
  | kicks =>
      unfold PatternInv Pattern.setTrack Pattern.track
      exact ⟨hh, hs, by rw [List.length_set]; exact hk, hvh, hvs, hmem _ hvk⟩

end Drummer

namespace Drummer

theorem play_patterns (bpm : Option JsNum) (clock : ℚ) (s : DrummerState) :
    (play bpm clock s).1.patterns = s.patterns := by
  unfold play
  rcases bpm with _ | b
  · dsimp only
    split <;> rfl
  · cases b with
    | nan =>
        dsimp only
        split <;> rfl
    | num q =>
        dsimp only
        split_ifs <;> rfl

theorem stop_patterns (clock : ℚ) (s : DrummerState) :
    (stop clock s).1.patterns = s.patterns := by
  unfold stop
  split <;> rfl

set_option maxRecDepth 8192 in
/-- C3 counterexample: the claim that the `[0, 100]` velocity invariant is
preserved by `deserialize` fails - the invariant holds for the freshly
constructed state, yet deserializing the 64-underscore token (48 bytes of
255) yields a state whose stored velocities are 255. -/
theorem deserialize_breaks_velocity_bound :
    (decide (PatternInv 0 100 (mkDrummer 120).patterns),
      (deserialize (List.replicate 64 95) (mkDrummer 120)).map
        (fun p => decide (PatternInv 0 100 p.1.patterns))) =
    (true, some false) := by decide

/-- C3 (amended): every track has length exactly 16 and every stored
velocity lies in `[0, 255]` - this invariant holds in the initial state and
is preserved by every public operation, `deserialize` included (so also on
the `[0, 255]` states `deserialize` itself introduces).  The tighter
`[0, 100]` velocity bound holds initially and is preserved by `toggleNote`,
`adjustNoteVolume` and `reset`, while `setTempo`, `play` and `stop` leave
the Pattern untouched; `deserialize` alone guarantees only the decoded byte
range `[0, 255]` - a valid 48-byte token may carry velocities above 100. -/
theorem pattern_invariant :
    (∀ q : ℚ, PatternInv 0 100 (mkDrummer q).patterns) ∧
    (∀ (s : DrummerState) (d : Instrument) (n : ℕ) (b : Bool),
      PatternInv 0 100 s.patterns →
      PatternInv 0 100 (toggleNote d n b s).1.patterns) ∧
    (∀ (s : DrummerState) (d : Instrument) (n : ℕ) (δ : ℤ),
      PatternInv 0 100 s.patterns →
      PatternInv 0 100 (adjustNoteVolume d n δ s).1.patterns) ∧
    (∀ s : DrummerState, PatternInv 0 100 (reset s).1.patterns) ∧
    (∀ (bpm : JsNum) (s : DrummerState),
      (setTempo bpm s).1.patterns = s.patterns) ∧
    (∀ (bpm : Option JsNum) (clock : ℚ) (s : DrummerState),
      (play bpm clock s).1.patterns = s.patterns) ∧
    (∀ (clock : ℚ) (s : DrummerState),
      (stop clock s).1.patterns = s.patterns) ∧
    (∀ (s : DrummerState) (d : Instrument) (n : ℕ) (b : Bool),
      PatternInv 0 255 s.patterns →
      PatternInv 0 255 (toggleNote d n b s).1.patterns) ∧
    (∀ (s : DrummerState) (d : Instrument) (n : ℕ) (δ : ℤ),
      PatternInv 0 255 s.patterns →
      PatternInv 0 255 (adjustNoteVolume d n δ s).1.patterns) ∧
    (∀ (value : List ℕ) (s : DrummerState) (p : DrummerState × List DEvent),
      PatternInv 0 255 s.patterns → deserialize value s = some p →
      PatternInv 0 255 p.1.patterns) := by
  refine ⟨?_, ?_, ?_, ?_, ?_, play_patterns, stop_patterns, ?_, ?_, ?_⟩
  · intro q
    exact toDrumPatterns_inv defaultPatterns (by decide) 0 100 (by decide)
  · intro s d n b hinv
    unfold toggleNote
    exact set_preserves_inv 0 100 s.patterns d n _
      (by split <;> norm_num) hinv
  · intro s d n δ hinv
    unfold adjustNoteVolume
    exact set_preserves_inv 0 100 s.patterns d n _ (by constructor <;> omega) hinv
  · intro s
    exact toDrumPatterns_inv defaultPatterns (by decide) 0 100 (by decide)
  · intro bpm s
    rfl
  · intro s d n b hinv
    unfold toggleNote
    exact set_preserves_inv 0 255 s.patterns d n _
      (by split <;> norm_num) hinv
  · intro s d n δ hinv
    unfold adjustNoteVolume
    exact set_preserves_inv 0 255 s.patterns d n _ (by constructor <;> omega) hinv
  · intro value s p hinv h
    unfold deserialize at h
    cases hd : b64UrlDecode value with
    | none => rw [hd] at h; exact absurd h (by simp)
    | some bytes =>
        rw [hd] at h
        dsimp only at h
        split_ifs at h with hlen
        · injection h with h2
          rw [← h2]
          apply toDrumPatterns_inv
          · rw [List.length_map]
            exact hlen
          · intro b hb
            rcases List.mem_map.mp hb with ⟨x, hx, rfl⟩
            have := b64UrlDecode_lt value bytes hd x hx
            constructor
            · exact Int.ofNat_nonneg x
            · rw [Int.ofNat_eq_coe]
              exact_mod_cast (by omega : x ≤ 255)
        · injection h with h2
          rw [← h2]
          exact hinv

/-- C3 witness: invariant preservation at concrete instances - a toggle and
a volume adjustment on the default state under the `[0, 100]` bound, the
same two operations under the `[0, 255]` bound on a state holding velocity
255 everywhere (as a deserialized foreign token leaves it), and the
`[0, 255]` guarantee of a successful `deserialize` from that state. -/
theorem pattern_invariant_witness :
    PatternInv 0 100 (toggleNote Instrument.kicks 3 true (mkDrummer 120)).1.patterns ∧
    PatternInv 0 100 (adjustNoteVolume Instrument.snare 4 (-90) (mkDrummer 120)).1.patterns ∧
    PatternInv 0 255 (toggleNote Instrument.kicks 0 false
      (⟨false, false, 120, 0, 0, toDrumPatterns (List.replicate 48 255)⟩ :
        DrummerState)).1.patterns ∧
    PatternInv 0 255 (adjustNoteVolume Instrument.hihat 0 7
      (⟨false, false, 120, 0, 0, toDrumPatterns (List.replicate 48 255)⟩ :
        DrummerState)).1.patterns ∧
    PatternInv 0 255
      ((⟨false, false, 120, 0, 0, toDrumPatterns (List.replicate 48 255)⟩ :
        DrummerState), ([] : List DEvent)).1.patterns :=
  ⟨pattern_invariant.2.1 (mkDrummer 120) Instrument.kicks 3 true (by decide),
   pattern_invariant.2.2.1 (mkDrummer 120) Instrument.snare 4 (-90) (by decide),
   pattern_invariant.2.2.2.2.2.2.2.1
     (⟨false, false, 120, 0, 0, toDrumPatterns (List.replicate 48 255)⟩ :
       DrummerState) Instrument.kicks 0 false (by decide),
   pattern_invariant.2.2.2.2.2.2.2.2.1
     (⟨false, false, 120, 0, 0, toDrumPatterns (List.replicate 48 255)⟩ :
       DrummerState) Instrument.hihat 0 7 (by decide),
   pattern_invariant.2.2.2.2.2.2.2.2.2 []
     (⟨false, false, 120, 0, 0, toDrumPatterns (List.replicate 48 255)⟩ :
       DrummerState)
     ((⟨false, false, 120, 0, 0, toDrumPatterns (List.replicate 48 255)⟩ :
       DrummerState), [])
     (by decide) (by decide)⟩

end Drummer

namespace Drummer

theorem advanceNote_tempo (s : DrummerState) :
    (advanceNote s).tempoBpm = s.tempoBpm := rfl

theorem advanceNote_time (s : DrummerState) :
    (advanceNote s).nextNoteTime = s.nextNoteTime + secondsPer16th s := rfl

theorem secondsPer16th_advanceNote (s : DrummerState) :
    secondsPer16th (advanceNote s) = secondsPer16th s := rfl

theorem schedulerFuel_pos (fuel : ℕ) (clock : ℚ) (s : DrummerState)
    (hc : s.nextNoteTime < clock + 1 / 10) :
    schedulerFuel (fuel + 1) clock s =
      ((schedulerFuel fuel clock (advanceNote s)).1,
        (s.current16th, s.nextNoteTime) ::
          (schedulerFuel fuel clock (advanceNote s)).2) := by
  show (if s.nextNoteTime < clock + 1 / 10 then
      ((schedulerFuel fuel clock (advanceNote s)).1,
        (s.current16th, s.nextNoteTime) ::
          (schedulerFuel fuel clock (advanceNote s)).2)
    else (s, [])) = _
  rw [if_pos hc]

theorem schedulerFuel_neg (fuel : ℕ) (clock : ℚ) (s : DrummerState)
    (hc : ¬ s.nextNoteTime < clock + 1 / 10) :
    schedulerFuel (fuel + 1) clock s = (s, []) := by
  show (if s.nextNoteTime < clock + 1 / 10 then
      ((schedulerFuel fuel clock (advanceNote s)).1,
        (s.current16th, s.nextNoteTime) ::
          (schedulerFuel fuel clock (advanceNote s)).2)
    else (s, [])) = _
  rw [if_neg hc]

theorem schedulerFuel_times (clock : ℚ) :
    ∀ (fuel : ℕ) (s : DrummerState) (i : ℕ) (x : ℕ × ℚ),
      ((schedulerFuel fuel clock s).2)[i]? = some x →
      x.2 = s.nextNoteTime + i * secondsPer16th s := by
  intro fuel
  induction fuel with
  | zero =>
      intro s i x h
      simp [schedulerFuel] at h
  | succ n ih =>
      intro s i x h
      by_cases hc : s.nextNoteTime < clock + 1 / 10
      · rw [schedulerFuel_pos n clock s hc] at h
        cases i with
        | zero =>
            simp only [List.getElem?_cons_zero, Option.some.injEq] at h
            rw [← h]
            simp
        | succ j =>
            simp only [List.getElem?_cons_succ] at h
            have hrec := ih (advanceNote s) j x h
            rw [hrec, advanceNote_time, secondsPer16th_advanceNote]
            push_cast
            ring
      · rw [schedulerFuel_neg n clock s hc] at h
        simp at h

/-- C1: in a playing state with a stored tempo of at least 1 BPM, every pass
of the scheduling loop body schedules the current step at the absolute
timestamp `nextNoteTime` and then advances the cursor by one step:
`advanceNote` adds exactly `60 / tempo / 4` seconds (recomputed from the
stored tempo, independent of the polling clock) and steps the index modulo
16; consequently the trigger timestamps of consecutive scheduled steps in a
polling pass differ by exactly `60 / tempo / 4` seconds. -/
theorem scheduler_cadence (s : DrummerState) (clock : ℚ) (fuel : ℕ)
    (hT : 1 ≤ s.tempoBpm) :
    ((advanceNote s).nextNoteTime =
        s.nextNoteTime + 60 / (s.tempoBpm : ℚ) / 4 ∧
      (advanceNote s).current16th = (s.current16th + 1) % 16) ∧
    (s.nextNoteTime < clock + 1 / 10 →
      ((schedulerFuel (fuel + 1) clock s).2).head? =
        some (s.current16th, s.nextNoteTime)) ∧
    (∀ (i : ℕ) (x y : ℕ × ℚ),
      ((schedulerFuel fuel clock s).2)[i]? = some x →
      ((schedulerFuel fuel clock s).2)[i + 1]? = some y →
      y.2 - x.2 = 60 / (s.tempoBpm : ℚ) / 4) := by
  have hmax : max 1 ((s.tempoBpm : ℤ) : ℚ) = (s.tempoBpm : ℚ) :=
    max_eq_right (by exact_mod_cast hT)
  have hspt : secondsPer16th s = 60 / (s.tempoBpm : ℚ) / 4 := by
    unfold secondsPer16th
    rw [hmax]
  refine ⟨⟨?_, rfl⟩, ?_, ?_⟩
  · rw [advanceNote_time, hspt]
  · intro hc
    rw [schedulerFuel_pos fuel clock s hc]
    rfl
  · intro i x y hx hy
    have h1 := schedulerFuel_times clock fuel s i x hx
    have h2 := schedulerFuel_times clock fuel s (i + 1) y hy
    rw [h1, h2, hspt]
    push_cast
    ring

end Drummer

namespace Drummer

theorem clampTempo_120 : clampTempo 120 = 120 :=
  clampTempo_int 120 (by norm_num) (by norm_num)

theorem mkDrummer120_sched2 :
    (schedulerFuel 2 1 (mkDrummer 120)).2 = [(0, 0), (1, 1 / 8)] := by
  have hs1 : secondsPer16th (mkDrummer 120) = 1 / 8 := by
    unfold secondsPer16th mkDrummer
    rw [clampTempo_120]
    norm_num
  have h1 : schedulerFuel 2 1 (mkDrummer 120) =
      ((schedulerFuel 1 1 (advanceNote (mkDrummer 120))).1,
        (0, 0) :: (schedulerFuel 1 1 (advanceNote (mkDrummer 120))).2) := by
    have := schedulerFuel_pos 1 1 (mkDrummer 120)
      (by show (0 : ℚ) < 1 + 1 / 10; norm_num)
    exact this
  have hadv : (advanceNote (mkDrummer 120)).nextNoteTime = 1 / 8 := by
    rw [advanceNote_time, hs1]
    show (0 : ℚ) + 1 / 8 = 1 / 8
    norm_num
  have h2 : schedulerFuel 1 1 (advanceNote (mkDrummer 120)) =
      ((schedulerFuel 0 1 (advanceNote (advanceNote (mkDrummer 120)))).1,
        ((advanceNote (mkDrummer 120)).current16th,
          (advanceNote (mkDrummer 120)).nextNoteTime) ::
          (schedulerFuel 0 1 (advanceNote (advanceNote (mkDrummer 120)))).2) := by
    apply schedulerFuel_pos
    rw [hadv]
    norm_num
  rw [h1, h2, hadv]
  rfl

/-- C1 witness: the cadence at tempo 120 (a sixteenth every 1/8 s) - the
`advanceNote` effect at the fresh state, the first scheduled pair of a pass,
and the 1/8 s gap between the first two scheduled trigger timestamps. -/
theorem scheduler_cadence_witness :
    ((advanceNote (mkDrummer 120)).nextNoteTime =
        (mkDrummer 120).nextNoteTime +
          60 / ((mkDrummer 120).tempoBpm : ℚ) / 4 ∧
      (advanceNote (mkDrummer 120)).current16th =
        ((mkDrummer 120).current16th + 1) % 16) ∧
    ((schedulerFuel 1 0 (mkDrummer 120)).2).head? =
      some ((mkDrummer 120).current16th, (mkDrummer 120).nextNoteTime) ∧
    ((1 : ℕ), (1 / 8 : ℚ)).2 - ((0 : ℕ), (0 : ℚ)).2 =
      60 / ((mkDrummer 120).tempoBpm : ℚ) / 4 :=
  ⟨(scheduler_cadence (mkDrummer 120) 0 0 (by rw [show (mkDrummer 120).tempoBpm = 120 from clampTempo_120]; norm_num)).1,
   (scheduler_cadence (mkDrummer 120) 0 0 (by rw [show (mkDrummer 120).tempoBpm = 120 from clampTempo_120]; norm_num)).2.1
     (by show (0 : ℚ) < 0 + 1 / 10; norm_num),
   (scheduler_cadence (mkDrummer 120) 1 2 (by rw [show (mkDrummer 120).tempoBpm = 120 from clampTempo_120]; norm_num)).2.2
     0 (0, 0) (1, 1 / 8)
     (by rw [mkDrummer120_sched2]; rfl)
     (by rw [mkDrummer120_sched2]; rfl)⟩

end Drummer

namespace Drummer

theorem play_hasCtx (bpm : Option JsNum) (clock : ℚ) (s : DrummerState) :
    (play bpm clock s).1.hasCtx = true := by
  unfold play
  rcases bpm with _ | b
  · dsimp only
    split <;> rfl
  · cases b with
    | nan =>
        dsimp only
        split <;> rfl
    | num q =>
        dsimp only
        split_ifs <;> rfl

theorem play_current16th (bpm : Option JsNum) (clock : ℚ) (s : DrummerState) :
    (play bpm clock s).1.current16th = s.current16th := by
  unfold play
  rcases bpm with _ | b
  · dsimp only
    split <;> rfl
  · cases b with
    | nan =>
        dsimp only
        split <;> rfl
    | num q =>
        dsimp only
        split_ifs <;> rfl

theorem play_none_stopped (clock : ℚ) (s : DrummerState)
    (h : s.isPlaying = false) :
    (play none clock s).1 =
      { s with hasCtx := true, isPlaying := true, nextNoteTime := clock } := by
  unfold play
  dsimp only
  rw [if_neg (by simp [h])]

theorem stop_hasCtx_eq (clock : ℚ) (s : DrummerState) (h : s.hasCtx = true) :
    (stop clock s).1 =
      { s with isPlaying := false, current16th := 0, nextNoteTime := clock } := by
  unfold stop
  rw [if_pos h]

/-- C7: `stop` (once an audio context exists) resets the cursor - step index
0 and `nextNoteTime` equal to the clock - while `play` never touches the step
index and, when starting from a stopped state, resets only `nextNoteTime`;
hence after `play`, `stop`, `play` (no tempo change), the first step a
scheduler pass schedules is step 0. -/
theorem stop_resets_cursor (s : DrummerState) (bpm : Option JsNum)
    (t1 t2 t3 clock : ℚ) (fuel : ℕ) (hctx : s.hasCtx = true)
    (hstopped : s.isPlaying = false) (hclk : t3 ≤ clock) :
    ((stop t2 s).1.current16th = 0 ∧ (stop t2 s).1.nextNoteTime = t2) ∧
    (play bpm t3 s).1.current16th = s.current16th ∧
    (play none t3 s).1.nextNoteTime = t3 ∧
    ((schedulerFuel (fuel + 1) clock
        (play none t3 (stop t2 (play none t1 s).1).1).1).2).head? =
      some (0, t3) := by
  refine ⟨?_, play_current16th bpm t3 s, ?_, ?_⟩
  · rw [stop_hasCtx_eq t2 s hctx]
    exact ⟨rfl, rfl⟩
  · rw [play_none_stopped t3 s hstopped]
  · have h1 : (play none t1 s).1.hasCtx = true := play_hasCtx none t1 s
    have h2 := stop_hasCtx_eq t2 (play none t1 s).1 h1
    have h3 : (stop t2 (play none t1 s).1).1.isPlaying = false := by
      rw [h2]
    have h4 := play_none_stopped t3 (stop t2 (play none t1 s).1).1 h3
    have h5 : (play none t3 (stop t2 (play none t1 s).1).1).1.current16th = 0 := by
      rw [h4, h2]
    have h6 : (play none t3 (stop t2 (play none t1 s).1).1).1.nextNoteTime = t3 := by
      rw [h4]
    rw [schedulerFuel_pos fuel clock _ (by rw [h6]; linarith)]
    rw [List.head?_cons, h5, h6]

/-- C7 witness: the whole statement at a concrete stopped state (context
initialized, cursor parked at step 7) with clock readings 1, 2, 3. -/
theorem stop_resets_cursor_witness :
    ((stop 2 (⟨true, false, 120, 7, 0, toDrumPatterns defaultPatterns⟩ :
        DrummerState)).1.current16th = 0 ∧
      (stop 2 (⟨true, false, 120, 7, 0, toDrumPatterns defaultPatterns⟩ :
        DrummerState)).1.nextNoteTime = 2) ∧
    (play none 3 (⟨true, false, 120, 7, 0, toDrumPatterns defaultPatterns⟩ :
        DrummerState)).1.current16th =
      (⟨true, false, 120, 7, 0, toDrumPatterns defaultPatterns⟩ :
        DrummerState).current16th ∧
    (play none 3 (⟨true, false, 120, 7, 0, toDrumPatterns defaultPatterns⟩ :
        DrummerState)).1.nextNoteTime = 3 ∧
    ((schedulerFuel 1 3
        (play none 3 (stop 2 (play none 1
          (⟨true, false, 120, 7, 0, toDrumPatterns defaultPatterns⟩ :
            DrummerState)).1).1).1).2).head? =
      some (0, 3) :=
  stop_resets_cursor
    (⟨true, false, 120, 7, 0, toDrumPatterns defaultPatterns⟩ : DrummerState)
    none 1 2 3 3 0 rfl rfl (by norm_num)

end Drummer

namespace Drummer

theorem schedulerFuel_term (clock : ℚ) :
    ∀ (N : ℕ) (s : DrummerState), 1 / 20 ≤ secondsPer16th s →
      clock + 1 / 10 ≤ s.nextNoteTime + N * (1 / 20 : ℚ) →
      ¬ (schedulerFuel N clock s).1.nextNoteTime < clock + 1 / 10 := by
  intro N
  induction N with
  | zero =>
      intro s hspt hb
      show ¬ (schedulerFuel 0 clock s).1.nextNoteTime < clock + 1 / 10
      simp only [schedulerFuel]
      push_cast at hb
      intro hcon
      linarith
  | succ n ih =>
      intro s hspt hb
      by_cases hc : s.nextNoteTime < clock + 1 / 10
      · rw [schedulerFuel_pos n clock s hc]
        dsimp only
        apply ih (advanceNote s)
        · rw [secondsPer16th_advanceNote]
          exact hspt
        · rw [advanceNote_time]
          have hexp : ((n + 1 : ℕ) : ℚ) * (1 / 20) = (n : ℚ) * (1 / 20) + 1 / 20 := by
            push_cast
            ring
          rw [hexp] at hb
          linarith
      · rw [schedulerFuel_neg n clock s hc]
        exact hc

/-- C10: in any state whose stored tempo lies in the clamped range
`[30, 300]` and for any fixed clock reading, a sixteenth note lasts at least
1/20 s (and is strictly positive), and the catch-up while loop of the
scheduler finishes: some finite fuel makes the loop guard false, after which
further iterations do nothing - the scheduling pass is total. -/
theorem scheduler_terminates (s : DrummerState) (clock : ℚ)
    (h30 : 30 ≤ s.tempoBpm) (h300 : s.tempoBpm ≤ 300) :
    (1 / 20 : ℚ) ≤ secondsPer16th s ∧ 0 < secondsPer16th s ∧
    ∃ N : ℕ, ¬ (schedulerFuel N clock s).1.nextNoteTime < clock + 1 / 10 := by
  have hT1 : (1 : ℚ) ≤ (s.tempoBpm : ℚ) := by
    have : (1 : ℤ) ≤ s.tempoBpm := by omega
    exact_mod_cast this
  have hpos : (0 : ℚ) < (s.tempoBpm : ℚ) := lt_of_lt_of_le one_pos hT1
  have hTle : ((s.tempoBpm : ℤ) : ℚ) ≤ 300 := by exact_mod_cast h300
  have hspt : secondsPer16th s = 15 / (s.tempoBpm : ℚ) := by
    unfold secondsPer16th
    rw [max_eq_right hT1]
    ring
  have h1 : (1 / 20 : ℚ) ≤ secondsPer16th s := by
    rw [hspt, le_div_iff₀ hpos]
    linarith
  refine ⟨h1, lt_of_lt_of_le (by norm_num) h1, ?_⟩
  refine ⟨(⌈(clock + 1 / 10 - s.nextNoteTime) * 20⌉).toNat, ?_⟩
  apply schedulerFuel_term clock _ s h1
  have hceil : (clock + 1 / 10 - s.nextNoteTime) * 20 ≤
      ((⌈(clock + 1 / 10 - s.nextNoteTime) * 20⌉ : ℤ) : ℚ) := Int.le_ceil _
  have htn : ((⌈(clock + 1 / 10 - s.nextNoteTime) * 20⌉ : ℤ) : ℚ) ≤
      (((⌈(clock + 1 / 10 - s.nextNoteTime) * 20⌉).toNat : ℕ) : ℚ) := by
    exact_mod_cast Int.self_le_toNat _
  linarith

/-- C10 witness: termination data at the default state and clock reading 5. -/
theorem scheduler_terminates_witness :
    (1 / 20 : ℚ) ≤ secondsPer16th (mkDrummer 120) ∧
    0 < secondsPer16th (mkDrummer 120) ∧
    ∃ N : ℕ, ¬ (schedulerFuel N 5 (mkDrummer 120)).1.nextNoteTime < 5 + 1 / 10 :=
  scheduler_terminates (mkDrummer 120) 5
    (by rw [show (mkDrummer 120).tempoBpm = 120 from clampTempo_120]; norm_num)
    (by rw [show (mkDrummer 120).tempoBpm = 120 from clampTempo_120]; norm_num)

end Drummer
